import Mathlib

/-
Verification of the rule-evaluation engine excerpt (kyverno):
shallow embedding of the arithmetic operand system (pkg/engine/jmespath),
the pattern validator and for-each coordinator (validation handler),
the JSON-6902 patcher entry point and the image-verify rule loop.

Go machine floats (float64) are modelled as exact rationals and the
int64 values backing time.Duration as unbounded integers: every claim
below concerns operand tags, error classification, zero/integrality
tests and control flow, none of which depends on float rounding or on
64-bit overflow for the inputs involved.
-/

namespace engineapi

/-- Rule response status (engineapi.RuleStatus). -/
inductive RuleStatus
  | pass
  | fail
  | error
  | skip
  | warn
deriving DecidableEq, Repr

/-- Rule type (engineapi.RuleType); only the kinds the excerpt uses. -/
inductive RuleType
  | validation
  | mutation
  | imageVerify
deriving DecidableEq, Repr

/-- The rule response shape (engineapi.RuleResponse): name, type, message, status. -/
structure RuleResponse where
  name : String
  rtype : RuleType
  message : String
  status : RuleStatus
deriving DecidableEq, Repr

end engineapi

namespace internal

open engineapi

/-- Modelled from the spec: internal.RuleResponse (constructor helpers of the
engine, outside the excerpt) builds a RuleResponse for the given rule with the
given type, message and status. -/
def RuleResponse (name : String) (t : RuleType) (msg : String) (st : RuleStatus) :
    engineapi.RuleResponse :=
  ⟨name, t, msg, st⟩

/-- Modelled from the spec: internal.RuleError builds an Error-status response
whose message folds the short message and the underlying cause. -/
def RuleError (name : String) (t : RuleType) (msg : String) (err : String) :
    engineapi.RuleResponse :=
  RuleResponse name t (msg ++ ": " ++ err) .error

/-- Modelled from the spec: internal.RuleSkip builds a Skip-status response. -/
def RuleSkip (name : String) (t : RuleType) (msg : String) : engineapi.RuleResponse :=
  RuleResponse name t msg .skip

/-- Modelled from the spec: internal.RulePass builds a Pass-status response. -/
def RulePass (name : String) (t : RuleType) (msg : String) : engineapi.RuleResponse :=
  RuleResponse name t msg .pass

end internal

namespace jmespath

/- Operator-name constants, as in pkg/engine/jmespath/functions.go. -/

def add : String := "add"

def subtract : String := "subtract"

def multiply : String := "multiply"

def divide : String := "divide"

def modulo : String := "modulo"

/-- The error taxonomy of formatError (pkg/engine/jmespath): each error
carries the operator name it was formatted with. -/
inductive JPError
  | typeMismatch (op : String)
  | zeroDivision (op : String)
  | nonIntegerModulo (op : String)
  | generic (op : String) (msg : String)
deriving DecidableEq, Repr

/-- A parsed arithmetic operand (pkg/engine/jmespath/arithmetic.go):
Scalar wraps a float64 (modelled as an exact rational), Quantity wraps a
resource.Quantity (modelled by its exact decimal amount; the display
format/unit is dropped), Duration wraps time.Duration (int64 nanoseconds). -/
inductive Operand
  | scalar (x : ℚ)
  | quantity (q : ℚ)
  | duration (ns : ℤ)
deriving DecidableEq, Repr

/-- The value an arithmetic handler returns: Go returns a float64 for scalar
results and a rendered string for quantity/duration results; the model keeps
the semantic content together with the kind of rendering. -/
inductive ArithValue
  | scalar (x : ℚ)
  | quantityStr (q : ℚ)
  | durationStr (ns : ℤ)
deriving DecidableEq, Repr

/-- Operand tag. -/
inductive Tag
  | scalar
  | quantity
  | duration
deriving DecidableEq, Repr

def Operand.tag : Operand → Tag
  | .scalar _ => .scalar
  | .quantity _ => .quantity
  | .duration _ => .duration

def ArithValue.tag : ArithValue → Tag
  | .scalar _ => .scalar
  | .quantityStr _ => .quantity
  | .durationStr _ => .duration

/-- Go conversion float64→int64 / int64 truncation toward zero, on the exact
rational model (used for int64(f) in the Modulo methods and the Duration
constructions). -/
def ratTrunc (q : ℚ) : ℤ :=
  q.num.tdiv (q.den : ℤ)

/-- The Add methods (Quantity.Add / Duration.Add / Scalar.Add): defined only
on a same-tag right operand, anything else is a typeMismatch formatted with
the operator name passed in (jpAdd passes add, jpSum passes sum). -/
def Operand.Add : Operand → Operand → String → Except JPError ArithValue
  | .quantity q1, .quantity q2, _ => .ok (.quantityStr (q1 + q2))
  | .quantity _, _, operator => .error (.typeMismatch operator)
  | .duration d1, .duration d2, _ => .ok (.durationStr (d1 + d2))
  | .duration _, _, operator => .error (.typeMismatch operator)
  | .scalar x, .scalar y, _ => .ok (.scalar (x + y))
  | .scalar _, _, operator => .error (.typeMismatch operator)

/-- The Subtract methods: same-tag pairs only. -/
def Operand.Subtract : Operand → Operand → Except JPError ArithValue
  | .quantity q1, .quantity q2 => .ok (.quantityStr (q1 - q2))
  | .quantity _, _ => .error (.typeMismatch subtract)
  | .duration d1, .duration d2 => .ok (.durationStr (d1 - d2))
  | .duration _, _ => .error (.typeMismatch subtract)
  | .scalar x, .scalar y => .ok (.scalar (x - y))
  | .scalar _, _ => .error (.typeMismatch subtract)

/-- The Multiply methods. Quantity.Multiply(Scalar) re-parses the scalar as a
quantity and multiplies exact decimals (modelled as exact rational product;
the re-parse succeeds for every finite float). Duration.Multiply(Scalar)
multiplies the float seconds and truncates back into integer nanoseconds.
Scalar.Multiply delegates to v.Multiply(op1) for a Quantity or Duration right
operand; those delegated results are written out directly here. -/
def Operand.Multiply : Operand → Operand → Except JPError ArithValue
  | .quantity q, .scalar x => .ok (.quantityStr (q * x))
  | .quantity _, _ => .error (.typeMismatch multiply)
  | .duration d, .scalar x => .ok (.durationStr (ratTrunc ((d : ℚ) * x)))
  | .duration _, _ => .error (.typeMismatch multiply)
  | .scalar x, .scalar y => .ok (.scalar (x * y))
  | .scalar x, .quantity q => .ok (.quantityStr (q * x))
  | .scalar x, .duration d => .ok (.durationStr (ratTrunc ((d : ℚ) * x)))

/-- The Divide methods. Each arm checks its zero divisor first
(AsApproximateFloat64/Seconds of the zero quantity/duration is exactly 0;
the model equates that test with the exact value being 0).
Quantity/Quantity and Duration/Duration produce a float (Scalar);
Quantity/Scalar and Duration/Scalar produce a quantity resp. duration
(QuoRound decimal scale rounding of Quantity/Scalar is abstracted to the
exact quotient). -/
def Operand.Divide : Operand → Operand → Except JPError ArithValue
  | .quantity q1, .quantity q2 =>
    if q2 = 0 then .error (.zeroDivision divide)
    else .ok (.scalar (q1 / q2))
  | .quantity q, .scalar x =>
    if x = 0 then .error (.zeroDivision divide)
    else .ok (.quantityStr (q / x))
  | .quantity _, _ => .error (.typeMismatch divide)
  | .duration d1, .duration d2 =>
    if (d2 : ℚ) = 0 then .error (.zeroDivision divide)
    else .ok (.scalar ((d1 : ℚ) / (d2 : ℚ)))
  | .duration d, .scalar x =>
    if x = 0 then .error (.zeroDivision divide)
    else .ok (.durationStr (ratTrunc ((d : ℚ) / x)))
  | .duration _, _ => .error (.typeMismatch divide)
  | .scalar x, .scalar y =>
    if y = 0 then .error (.zeroDivision divide)
    else .ok (.scalar (x / y))
  | .scalar _, _ => .error (.typeMismatch divide)

/-- The Modulo methods. Quantity and Scalar first truncate both operands to
int64 and fail with nonIntegerModulo if either had a fractional part, then
fail with zeroDivision on a zero right operand, else take the Go int64 `%`
(truncated remainder). Duration only checks the zero divisor. -/
def Operand.Modulo : Operand → Operand → Except JPError ArithValue
  | .quantity q1, .quantity q2 =>
    let i1 := ratTrunc q1
    let i2 := ratTrunc q2
    if q1 ≠ (i1 : ℚ) then .error (.nonIntegerModulo modulo)
    else if q2 ≠ (i2 : ℚ) then .error (.nonIntegerModulo modulo)
    else if i2 = 0 then .error (.zeroDivision modulo)
    else .ok (.quantityStr ((i1.tmod i2 : ℤ) : ℚ))
  | .quantity _, _ => .error (.typeMismatch modulo)
  | .duration d1, .duration d2 =>
    if d2 = 0 then .error (.zeroDivision modulo)
    else .ok (.durationStr (d1.tmod d2))
  | .duration _, _ => .error (.typeMismatch modulo)
  | .scalar x, .scalar y =>
    let val1 := ratTrunc x
    let val2 := ratTrunc y
    if x ≠ (val1 : ℚ) then .error (.nonIntegerModulo modulo)
    else if y ≠ (val2 : ℚ) then .error (.nonIntegerModulo modulo)
    else if val2 = 0 then .error (.zeroDivision modulo)
    else .ok (.scalar ((val1.tmod val2 : ℤ) : ℚ))
  | .scalar _, _ => .error (.typeMismatch modulo)

/-- The five binary arithmetic operators, dispatching on parsed operands as
jpAdd/jpSubtract/jpMultiply/jpDivide/jpModulo do after
ParseArithemticOperands. -/
inductive ArithOp
  | add
  | subtract
  | multiply
  | divide
  | modulo
deriving DecidableEq, Repr

def opName : ArithOp → String
  | .add => add
  | .subtract => subtract
  | .multiply => multiply
  | .divide => divide
  | .modulo => modulo

def applyArith : ArithOp → Operand → Operand → Except JPError ArithValue
  | .add, o1, o2 => o1.Add o2 add
  | .subtract, o1, o2 => o1.Subtract o2
  | .multiply, o1, o2 => o1.Multiply o2
  | .divide, o1, o2 => o1.Divide o2
  | .modulo, o1, o2 => o1.Modulo o2

/-- The operator legality table exactly as the claim states it: add, subtract,
divide and modulo only on same-tag pairs, multiply only when at least one
operand is a Scalar; `none` means the claim predicts a TypeMismatch. -/
def claimedResultTag : ArithOp → Tag → Tag → Option Tag
  | .add, .quantity, .quantity => some .quantity
  | .add, .duration, .duration => some .duration
  | .add, .scalar, .scalar => some .scalar
  | .add, _, _ => none
  | .subtract, .quantity, .quantity => some .quantity
  | .subtract, .duration, .duration => some .duration
  | .subtract, .scalar, .scalar => some .scalar
  | .subtract, _, _ => none
  | .multiply, .scalar, .scalar => some .scalar
  | .multiply, .scalar, .quantity => some .quantity
  | .multiply, .scalar, .duration => some .duration
  | .multiply, .quantity, .scalar => some .quantity
  | .multiply, .duration, .scalar => some .duration
  | .multiply, _, _ => none
  | .divide, .quantity, .quantity => some .scalar
  | .divide, .duration, .duration => some .scalar
  | .divide, .scalar, .scalar => some .scalar
  | .divide, _, _ => none
  | .modulo, .quantity, .quantity => some .quantity
  | .modulo, .duration, .duration => some .duration
  | .modulo, .scalar, .scalar => some .scalar
  | .modulo, _, _ => none

/-- The legality table the code actually implements: as claimed, except that
divide also accepts Quantity/Scalar (giving a Quantity) and Duration/Scalar
(giving a Duration), per the comment block over the Divide methods. -/
def legalResultTag : ArithOp → Tag → Tag → Option Tag
  | .divide, .quantity, .scalar => some .quantity
  | .divide, .duration, .scalar => some .duration
  | op, t1, t2 => claimedResultTag op t1 t2

/-- Zero-valued operand of a given tag (for the divide-by-zero / modulo-by-zero
claims: a right operand that parses to the zero scalar, zero quantity or zero
duration). -/
def zeroOfTag : Tag → Operand
  | .scalar => .scalar 0
  | .quantity => .quantity 0
  | .duration => .duration 0

/-- Whether an operand trips the Modulo methods' integrality test
(float64 value different from its int64 truncation); durations are int64
nanoseconds and are never tested. -/
def fractionalOperand : Operand → Bool
  | .scalar x => decide (x ≠ ((ratTrunc x : ℤ) : ℚ))
  | .quantity q => decide (q ≠ ((ratTrunc q : ℤ) : ℚ))
  | .duration _ => false

end jmespath

namespace validation

open engineapi

/-- Summary of processing one non-nil for-each element inside
validator.validateElements: AddElementToContext may fail, building the nested
for-each validator may fail, otherwise the nested validator.validate call
returns either nil or a rule response. The nested evaluation (a recursive
validator over a copied policy context) is abstracted to this outcome. -/
inductive ElementOutcome
  | ctxErr (err : String)
  | mkErr (err : String)
  | res (r : Option RuleResponse)

/-- The element loop of validator.validateElements. `total` is the length of
the full element list (Go: len(elements), used by the `index < len(elements)-1`
last-element test), `index` the current index and `applyCount` the running
applied-element count. A nil element, a nil nested response, a Skip nested
response, and an Error nested response on a non-last element all continue;
an Error on the last element and any other non-Pass abort with the nested
message folded into "validation failure: ..." keeping the nested status. -/
def veLoop (name : String) (run : Nat → α → ElementOutcome) (total : Nat) :
    List (Option α) → Nat → Nat → RuleResponse × Nat
  | [], _, applyCount => (internal.RulePass name .validation "", applyCount)
  | none :: rest, index, applyCount => veLoop name run total rest (index + 1) applyCount
  | some el :: rest, index, applyCount =>
    match run index el with
    | .ctxErr err =>
      (internal.RuleError name .validation "failed to process foreach" err, applyCount)
    | .mkErr err =>
      (internal.RuleError name .validation "failed to create foreach validator" err, applyCount)
    | .res none => veLoop name run total rest (index + 1) applyCount
    | .res (some r) =>
      if r.status = .skip then veLoop name run total rest (index + 1) applyCount
      else if r.status ≠ .pass then
        if r.status = .error ∧ index < total - 1 then
          veLoop name run total rest (index + 1) applyCount
        else
          (internal.RuleResponse name .validation ("validation failure: " ++ r.message) r.status,
            applyCount)
      else veLoop name run total rest (index + 1) (applyCount + 1)

/-- validator.validateElements: checkpoint/restore of the JSON context is
transparent to the returned response and count and is omitted. -/
def validateElements (name : String) (run : Nat → α → ElementOutcome)
    (elements : List (Option α)) : RuleResponse × Nat :=
  veLoop name run elements.length elements 0 0

/-- One entry of the rule's foreach list, as validator.validateForEach
consumes it: the result of evaluating foreach.List against the JSON context
(`none` models an EvaluateList error, which is logged and skipped), and the
per-element nested evaluation. -/
structure ForEachSpec (α : Type) where
  elements : Option (List (Option α))
  run : Nat → α → ElementOutcome

/-- The spec loop of validator.validateForEach: per foreach entry, an
evaluation error continues, a non-Pass element-loop response aborts the whole
rule with that response, otherwise the applied count accumulates. -/
def feLoop (name : String) : List (ForEachSpec α) → Nat → Option RuleResponse × Nat
  | [], applyCount => (none, applyCount)
  | spec :: rest, applyCount =>
    match spec.elements with
    | none => feLoop name rest applyCount
    | some elems =>
      let rc := validateElements name spec.run elems
      if rc.1.status ≠ .pass then (some rc.1, applyCount)
      else feLoop name rest (applyCount + rc.2)

/-- validator.validateForEach: `none` for the forEach field distinguishes a
rule with no foreach spec (Go nil slice) from an empty list of specs. -/
def validateForEach (name : String) (forEach : Option (List (ForEachSpec α))) :
    Option RuleResponse :=
  match feLoop name (forEach.getD []) 0 with
  | (some resp, _) => some resp
  | (none, applyCount) =>
    if applyCount = 0 then
      match forEach with
      | none => none
      | some _ => some (internal.RuleSkip name .validation "rule skipped")
    else some (internal.RulePass name .validation "rule passed")

/-- Outcome of validate.MatchPattern (the structural matcher, outside the
excerpt) on a resource and one pattern, as the validator branches on it:
success, a *PatternError with its path, skip classification and rendered
message, or any other error. -/
inductive MatchOutcome
  | ok
  | patternErr (path : String) (skipFlag : Bool) (msg : String)
  | otherErr (msg : String)
deriving DecidableEq, Repr

/-- The validator state after newValidator, with the collaborators the
claims need. Res, Pat and Elem abstract the resource document, a pattern and
a for-each list element. `loadContext` is the contextLoader outcome,
`preconditions` the CheckPreconditions outcome, `denyResponse` models a
present deny spec by the (abstracted) response validateDeny would build,
`anyPattern` a present anyPattern by the deserializeAnyPattern outcome,
`substitute` the substitutePatterns outcome, `matchPattern` the structural
matcher, `element` the policy context's element (none when empty) and
`msgSubst` the variable substitution of the rule's custom message. -/
structure Validator (Res Pat Elem : Type) where
  ruleName : String
  validationMessage : String
  loadContext : Except String Unit
  preconditions : Except String Bool
  denyResponse : Option RuleResponse
  pattern : Option Pat
  anyPattern : Option (Except String (List Pat))
  forEach : Option (List (ForEachSpec Elem))
  substitute : Except String Unit
  matchPattern : Res → Pat → MatchOutcome
  element : Option Res
  newResource : Res
  isDelete : Bool
  msgSubst : Except String String

/-- validator.buildErrorMessage: the default message when the rule has none,
else the substituted custom message with a trailing period normalized. -/
def buildErrorMessage (v : Validator Res Pat Elem) (errMsg path : String) : String :=
  if v.validationMessage = "" then
    if path ≠ "" then
      "validation error: rule " ++ v.ruleName ++ " failed at path " ++ path
    else
      "validation error: rule " ++ v.ruleName ++ " execution error: " ++ errMsg
  else
    match v.msgSubst with
    | .error _ =>
      "validation error: variables substitution error in rule " ++ v.ruleName ++
        " execution error: " ++ errMsg
    | .ok m0 =>
      let m := if m0.endsWith "." then m0 else m0 ++ "."
      if path ≠ "" then
        "validation error: " ++ m ++ " rule " ++ v.ruleName ++ " failed at path " ++ path
      else
        "validation error: " ++ m ++ " rule " ++ v.ruleName ++ " execution error: " ++ errMsg

/-- buildAnyPatternErrorMessage: joins the per-candidate failures and puts
the rule's custom message (period-normalized) in front when present. -/
def buildAnyPatternErrorMessage (validationMessage : String) (errors : List String) : String :=
  let errStr := String.intercalate " " errors
  if validationMessage = "" then "validation error: " ++ errStr
  else if validationMessage.endsWith "." then
    "validation error: " ++ validationMessage ++ " " ++ errStr
  else "validation error: " ++ validationMessage ++ ". " ++ errStr

/-- The anyPattern loop of validator.validatePatterns, carrying the skipped
and failed per-candidate error strings. The first fully matching candidate
returns Pass naming its index; a skip-classified PatternError records a
skipped entry, another PatternError records a failed entry (with path when
present), and a non-PatternError is ignored. Exhaustion aggregates: skipped
entries with no failed entry give Skip, any failed entry gives Fail, and
neither (also the case of no candidates) falls through to the trailing Pass
of validatePatterns. -/
def anyPatternLoop (name validationMessage : String) (mp : Pat → MatchOutcome) :
    List Pat → Nat → List String → List String → RuleResponse
  | [], _, skipped, failed =>
    if skipped.length > 0 ∧ failed.length = 0 then
      internal.RuleSkip name .validation (String.intercalate " " skipped)
    else if failed.length > 0 then
      internal.RuleResponse name .validation
        (buildAnyPatternErrorMessage validationMessage failed) .fail
    else internal.RulePass name .validation validationMessage
  | p :: rest, idx, skipped, failed =>
    match mp p with
    | .ok =>
      internal.RulePass name .validation
        ("validation rule '" ++ name ++ "' anyPattern[" ++ toString idx ++ "] passed.")
    | .patternErr path skipFlag msg =>
      if skipFlag then
        anyPatternLoop name validationMessage mp rest (idx + 1)
          (skipped ++ ["rule " ++ name ++ "[" ++ toString idx ++ "] skipped: " ++ msg]) failed
      else
        anyPatternLoop name validationMessage mp rest (idx + 1) skipped
          (failed ++ [if path = "" then
              "rule " ++ name ++ "[" ++ toString idx ++ "] failed: " ++ msg
            else
              "rule " ++ name ++ "[" ++ toString idx ++ "] failed at path " ++ path])
    | .otherErr _ => anyPatternLoop name validationMessage mp rest (idx + 1) skipped failed

/-- validator.validatePatterns on a resource: the single-pattern branch first
(Pass, Skip for a skip-classified mismatch, Error for an empty path, Fail
with the failing path otherwise; a non-PatternError surfaces as Error — the
source then reads the path of a nil *PatternError, modelled as the empty
path), then the anyPattern branch, then the trailing Pass. -/
def validatePatterns (v : Validator Res Pat Elem) (resource : Res) : RuleResponse :=
  match v.pattern with
  | some p =>
    (match v.matchPattern resource p with
    | .ok =>
      internal.RulePass v.ruleName .validation
        ("validation rule '" ++ v.ruleName ++ "' passed.")
    | .patternErr path skipFlag msg =>
      if skipFlag then internal.RuleSkip v.ruleName .validation msg
      else if path = "" then
        internal.RuleResponse v.ruleName .validation (buildErrorMessage v msg "") .error
      else
        internal.RuleResponse v.ruleName .validation (buildErrorMessage v msg path) .fail
    | .otherErr msg =>
      internal.RuleResponse v.ruleName .validation (buildErrorMessage v msg "") .error)
  | none =>
    match v.anyPattern with
    | some (.error e) =>
      internal.RuleError v.ruleName .validation
        "failed to deserialize anyPattern, expected type array" e
    | some (.ok pats) =>
      anyPatternLoop v.ruleName v.validationMessage (v.matchPattern resource) pats 0 [] []
    | none => internal.RulePass v.ruleName .validation v.validationMessage

/-- validator.validateResourceWithRule: match the element when it is
non-empty, return nil on a delete request, else match the new resource. -/
def validateResourceWithRule (v : Validator Res Pat Elem) : Option RuleResponse :=
  match v.element with
  | some el => some (validatePatterns v el)
  | none =>
    if v.isDelete then none
    else some (validatePatterns v v.newResource)

/-- validator.validate: context loading and precondition errors give Error,
unmet preconditions give Skip, then the rule dispatches on deny, patterns and
forEach; a rule with none of them returns nil (the invalid shape is only
logged). -/
def validate (v : Validator Res Pat Elem) : Option RuleResponse :=
  match v.loadContext with
  | .error e =>
    some (internal.RuleError v.ruleName .validation "failed to load context" e)
  | .ok _ =>
    match v.preconditions with
    | .error e =>
      some (internal.RuleError v.ruleName .validation "failed to evaluate preconditions" e)
    | .ok false => some (internal.RuleSkip v.ruleName .validation "preconditions not met")
    | .ok true =>
      match v.denyResponse with
      | some r => some r
      | none =>
        if v.pattern.isSome || v.anyPattern.isSome then
          match v.substitute with
          | .error e =>
            some (internal.RuleError v.ruleName .validation "variable substitution failed" e)
          | .ok _ => validateResourceWithRule v
        else
          match v.forEach with
          | some _ => validateForEach v.ruleName v.forEach
          | none => none

/-- Modelled from the spec: handlers.RuleResponses (outside the excerpt)
collects the optional rule response into a response list, dropping nil. -/
def RuleResponses : Option RuleResponse → List RuleResponse
  | none => []
  | some r => [r]

/-- validateResourceHandler.Process: builds a validator and wraps the
validate result (the unchanged resource it also returns is omitted). -/
def Process (v : Validator Res Pat Elem) : List RuleResponse :=
  RuleResponses (validate v)

/-- The total applied-element count a foreach list contributes when no entry
aborts: the sum of the per-entry element-loop counts (an entry whose list
evaluation failed contributes nothing). -/
def appliedTotal (name : String) : List (ForEachSpec α) → Nat
  | [] => 0
  | spec :: rest =>
    (match spec.elements with
     | none => 0
     | some elems => (validateElements name spec.run elems).2) + appliedTotal name rest

/-- The skipped-candidate error strings the anyPattern loop accumulates, as a
function of the candidates and their match outcomes (idx is the index of the
first candidate). -/
def skipEntries (name : String) (mp : Pat → MatchOutcome) : List Pat → Nat → List String
  | [], _ => []
  | p :: rest, idx =>
    match mp p with
    | .patternErr _ true msg =>
      ("rule " ++ name ++ "[" ++ toString idx ++ "] skipped: " ++ msg) ::
        skipEntries name mp rest (idx + 1)
    | _ => skipEntries name mp rest (idx + 1)

/-- The failed-candidate error strings the anyPattern loop accumulates. -/
def failEntries (name : String) (mp : Pat → MatchOutcome) : List Pat → Nat → List String
  | [], _ => []
  | p :: rest, idx =>
    match mp p with
    | .patternErr path false msg =>
      (if path = "" then "rule " ++ name ++ "[" ++ toString idx ++ "] failed: " ++ msg
       else "rule " ++ name ++ "[" ++ toString idx ++ "] failed at path " ++ path) ::
        failEntries name mp rest (idx + 1)
    | _ => failEntries name mp rest (idx + 1)

end validation

namespace jmespath

/-- Go map access input[key] over the association-list model of a
map[string]interface{} (keys unique, order arbitrary). -/
def lookupKey (k : String) : List (String × α) → Option α
  | [] => none
  | (k2, v) :: rest => if k2 = k then some v else lookupKey k rest

/-- The object literal map[string]interface\x7bkeyName: key, valName: value\x7d
jpItems emits per entry: when the two field names coincide the later
assignment wins, as in a Go map literal. The key field holds the entry's key
string (inl), the value field the entry's value (inr). -/
def mkItemObj (keyName valName : String) (k : String) (v : α) :
    List (String × (String ⊕ α)) :=
  if keyName = valName then [(valName, Sum.inr v)]
  else [(keyName, Sum.inl k), (valName, Sum.inr v)]

/-- The map arm of jpItems: collect the keys, sort them lexicographically so
the output is deterministic, then emit one object per key in sorted order.
The input Go map is modelled as an association list with unique keys whose
order stands for the map's iteration order; the array arm and the
argument-type checks of jpItems are separate branches, not modelled here. -/
def jpItemsMap [Inhabited α] (input : List (String × α)) (keyName valName : String) :
    List (List (String × (String ⊕ α))) :=
  let keys := List.insertionSort (fun a b : String => a ≤ b) (input.map Prod.fst)
  keys.map fun k => mkItemObj keyName valName k ((lookupKey k input).getD default)

end jmespath

namespace patch

open engineapi

/-- patchesJSON6902Handler: rule name, the raw patch string and the resource
to patch. The resource document (unstructured.Unstructured) is modelled as
Option Res with none standing for the empty zero-value document. -/
structure PatchesJSON6902Handler (Res : Type) where
  ruleName : String
  patches : String
  patchedResource : Option Res

/-- patchesJSON6902Handler.Patch: the response's Name and Type are set first;
if normalizing the patch string to an ordered operation list fails, the
response gets status Fail with the conversion error as its message, returned
with the empty document; otherwise processing is delegated.
ConvertPatchesToJSON and ProcessPatchJSON6902 are outside the excerpt and
passed in as `convert` and `process`. -/
def Patch (h : PatchesJSON6902Handler Res) (convert : String → Except String Ops)
    (process : String → Ops → Option Res → RuleResponse × Option Res) :
    RuleResponse × Option Res :=
  match convert h.patches with
  | .error e => ({ name := h.ruleName, rtype := .mutation, message := e, status := .fail }, none)
  | .ok ops => process h.ruleName ops h.patchedResource

end patch

namespace engine

open engineapi

/-- The policy-level apply-rules mode (kyvernov1.ApplyRules). -/
inductive ApplyRules
  | all
  | one
deriving DecidableEq, Repr

/-- The rule loop of engine.verifyAndPatchImages over the computed rules.
Each rule's handler invocation is summarized by its produced response list;
the loop records which rule indices were invoked and folds every response
into the policy response. Modelled from the spec: internal.AddRuleResponse
(outside the excerpt) increments the applied-rules counter once per counted
response; which statuses count is abstracted by the `counted` predicate.
After each rule, ApplyOne with a positive applied count breaks. -/
def vapiLoop (counted : RuleStatus → Bool) (mode : ApplyRules) :
    List (List RuleResponse) → Nat → Nat → List Nat × Nat
  | [], _, count => ([], count)
  | rs :: rest, idx, count =>
    let count2 := count + rs.countP (fun r => counted r.status)
    if mode = .one ∧ count2 > 0 then ([idx], count2)
    else
      let t := vapiLoop counted mode rest (idx + 1) count2
      (idx :: t.1, t.2)

/-- engine.verifyAndPatchImages, image-verification pass: iterate the rules
from the start; the result is the list of invoked rule indices and the final
applied-rules count. -/
def verifyAndPatchImages (counted : RuleStatus → Bool) (mode : ApplyRules)
    (ruleResponses : List (List RuleResponse)) : List Nat × Nat :=
  vapiLoop counted mode ruleResponses 0 0

end engine

namespace jmespath

/-- Truncation toward zero of an integer cast is the integer itself. -/
theorem ratTrunc_intCast (m : ℤ) : ratTrunc ((m : ℤ) : ℚ) = m := by
  simp [ratTrunc, Rat.num_intCast, Rat.den_intCast, Int.tdiv_one]

/-- Truncation toward zero of 0 is 0. -/
theorem ratTrunc_zero : ratTrunc 0 = 0 := by
  simpa using ratTrunc_intCast 0

/-- C3 (counterexample): the claim locates divide(Quantity, Scalar) outside
its legality table and so predicts a TypeMismatch failure, but the code
divides the quantity 2 by the scalar 2 and returns the quantity 1. -/
theorem c3_counterexample :
    claimedResultTag .divide .quantity .scalar = none ∧
    applyArith .divide (.quantity 2) (.scalar 2) = .ok (.quantityStr 1) := by
  constructor
  · rfl
  · norm_num [applyArith, Operand.Divide]

/-- C3 (amended): for every binary arithmetic operation and operand pair, a
pair outside the implemented legality table — the claimed table extended with
divide(Quantity, Scalar) → Quantity and divide(Duration, Scalar) → Duration —
fails with TypeMismatch, and a pair inside the table yields the listed result
tag whenever it succeeds, failing only with ZeroDivision or NonIntegerModulo
(never TypeMismatch). -/
theorem c3_amended (op : ArithOp) (o1 o2 : Operand) :
    (legalResultTag op o1.tag o2.tag = none →
      applyArith op o1 o2 = .error (.typeMismatch (opName op))) ∧
    (∀ t, legalResultTag op o1.tag o2.tag = some t →
      (∀ v, applyArith op o1 o2 = .ok v → v.tag = t) ∧
      (∀ e, applyArith op o1 o2 = .error e →
        e = .zeroDivision (opName op) ∨ e = .nonIntegerModulo (opName op))) := by
  cases op <;> cases o1 <;> cases o2 <;>
    simp [applyArith, Operand.Add, Operand.Subtract, Operand.Multiply, Operand.Divide,
      Operand.Modulo, legalResultTag, claimedResultTag, Operand.tag, ArithValue.tag, opName] <;>
    split_ifs <;> simp [ArithValue.tag]

/-- C3 (witness): c3_amended at add(Quantity 1, Duration 1), an unlisted pair
that indeed fails with TypeMismatch, and at divide(Quantity 2, Scalar 2),
a listed pair whose successful result carries the listed Quantity tag. -/
theorem c3_witness :
    applyArith .add (.quantity 1) (.duration 1) = .error (.typeMismatch add) ∧
    (ArithValue.quantityStr 1).tag = .quantity := by
  constructor
  · exact (c3_amended .add (.quantity 1) (.duration 1)).1 rfl
  · exact ((c3_amended .divide (.quantity 2) (.scalar 2)).2 .quantity rfl).1
      (.quantityStr 1) (by norm_num [applyArith, Operand.Divide])

/-- C4 (counterexample): the claim says modulo(x, 0) always fails with
ZeroDivision, but for the fractional scalar 15/2 the integrality test runs
first and modulo(15/2, 0) fails with NonIntegerModulo instead. -/
theorem c4_counterexample :
    applyArith .modulo (.scalar (15 / 2)) (.scalar 0) = .error (.nonIntegerModulo modulo) ∧
    JPError.nonIntegerModulo modulo ≠ JPError.zeroDivision modulo := by
  constructor
  · norm_num [applyArith, Operand.Modulo, ratTrunc, Int.tdiv]
  · simp

/-- C4 (amended): for every operand x, divide(x, zero-of-the-same-tag) fails
with ZeroDivision; modulo(x, zero-of-the-same-tag) fails with ZeroDivision
unless x is a Scalar or Quantity with a fractional part, in which case the
integrality test fires first and the failure is NonIntegerModulo. -/
theorem c4_amended (x : Operand) :
    applyArith .divide x (zeroOfTag x.tag) = .error (.zeroDivision divide) ∧
    applyArith .modulo x (zeroOfTag x.tag) =
      .error (if fractionalOperand x then .nonIntegerModulo modulo
              else .zeroDivision modulo) := by
  cases x with
  | scalar a =>
    refine ⟨by simp [Operand.tag, zeroOfTag, applyArith, Operand.Divide], ?_⟩
    simp only [Operand.tag, zeroOfTag, applyArith, Operand.Modulo, fractionalOperand,
      ratTrunc_zero]
    by_cases h : a = ((ratTrunc a : ℤ) : ℚ)
    · have h0 : ¬ (a ≠ ((ratTrunc a : ℤ) : ℚ)) := by simpa using h
      simp [h0]
    · simp [h]
  | quantity q =>
    refine ⟨by simp [Operand.tag, zeroOfTag, applyArith, Operand.Divide], ?_⟩
    simp only [Operand.tag, zeroOfTag, applyArith, Operand.Modulo, fractionalOperand,
      ratTrunc_zero]
    by_cases h : q = ((ratTrunc q : ℤ) : ℚ)
    · have h0 : ¬ (q ≠ ((ratTrunc q : ℤ) : ℚ)) := by simpa using h
      simp [h0]
    · simp [h]
  | duration d =>
    simp [Operand.tag, zeroOfTag, applyArith, Operand.Divide, Operand.Modulo,
      fractionalOperand]

/-- C5: modulo on Scalar and on Quantity operands requires both operands to
be exact integers — any fractional operand fails with NonIntegerModulo — and
on integral operands with a nonzero divisor it returns the truncated integer
remainder; in particular modulo(7.5, 2) fails with NonIntegerModulo and
modulo(7, 2) returns 1. -/
theorem c5_thm :
    (∀ x y : ℚ, x ≠ ((ratTrunc x : ℤ) : ℚ) ∨ y ≠ ((ratTrunc y : ℤ) : ℚ) →
      applyArith .modulo (.scalar x) (.scalar y) = .error (.nonIntegerModulo modulo) ∧
      applyArith .modulo (.quantity x) (.quantity y) = .error (.nonIntegerModulo modulo)) ∧
    (∀ m n : ℤ, n ≠ 0 →
      applyArith .modulo (.scalar ((m : ℤ) : ℚ)) (.scalar ((n : ℤ) : ℚ)) =
        .ok (.scalar ((m.tmod n : ℤ) : ℚ)) ∧
      applyArith .modulo (.quantity ((m : ℤ) : ℚ)) (.quantity ((n : ℤ) : ℚ)) =
        .ok (.quantityStr ((m.tmod n : ℤ) : ℚ))) ∧
    applyArith .modulo (.scalar (15 / 2)) (.scalar 2) = .error (.nonIntegerModulo modulo) ∧
    applyArith .modulo (.scalar 7) (.scalar 2) = .ok (.scalar 1) := by
  refine ⟨?_, ?_, ?_, ?_⟩
  · intro x y h
    constructor <;>
    · simp only [applyArith, Operand.Modulo]
      by_cases hx : x = ((ratTrunc x : ℤ) : ℚ)
      · have hy : y ≠ ((ratTrunc y : ℤ) : ℚ) := h.resolve_left (by simpa using hx)
        have hx0 : ¬ (x ≠ ((ratTrunc x : ℤ) : ℚ)) := by simpa using hx
        simp [hx0, hy]
      · simp [hx]
  · intro m n hn
    have hm : ¬ (((m : ℤ) : ℚ) ≠ ((ratTrunc ((m : ℤ) : ℚ) : ℤ) : ℚ)) := by
      simp [ratTrunc_intCast]
    have hn2 : ¬ (((n : ℤ) : ℚ) ≠ ((ratTrunc ((n : ℤ) : ℚ) : ℤ) : ℚ)) := by
      simp [ratTrunc_intCast]
    constructor <;>
    · simp only [applyArith, Operand.Modulo]
      simp [hm, hn2, ratTrunc_intCast, hn]
  · norm_num [applyArith, Operand.Modulo, ratTrunc, Int.tdiv]
  · norm_num [applyArith, Operand.Modulo, ratTrunc, Int.tdiv, Int.tmod]

/-- C5 (witness): c5_thm applied at modulo(15/2, 2), which fails with
NonIntegerModulo, and at modulo(7, 2), which returns the remainder 1. -/
theorem c5_witness :
    applyArith .modulo (.scalar (15 / 2)) (.scalar 2) = .error (.nonIntegerModulo modulo) ∧
    applyArith .modulo (.scalar ((7 : ℤ) : ℚ)) (.scalar ((2 : ℤ) : ℚ)) =
      .ok (.scalar (((7 : ℤ).tmod 2 : ℤ) : ℚ)) :=
  ⟨(c5_thm.1 (15 / 2) 2 (Or.inl (by norm_num [ratTrunc, Int.tdiv]))).1,
   (c5_thm.2.1 7 2 (by norm_num)).1⟩

/-- A key lookup in the association-list model of a Go map returns the same
value for any two permutations of the entries with no duplicated key. -/
theorem lookupKey_perm {α : Type} (k : String) {l1 l2 : List (String × α)}
    (hperm : l1.Perm l2) :
    (l1.map Prod.fst).Nodup → lookupKey k l1 = lookupKey k l2 := by
  induction hperm with
  | nil => intro _; rfl
  | cons x h ih =>
    intro hnd
    simp only [List.map_cons, List.nodup_cons] at hnd
    by_cases hx : x.1 = k <;> simp [lookupKey, hx, ih hnd.2]
  | swap x y l =>
    intro hnd
    simp only [List.map_cons, List.nodup_cons, List.mem_cons] at hnd
    have hxy : y.1 ≠ x.1 := fun hh => hnd.1 (Or.inl hh)
    by_cases hx : x.1 = k <;> by_cases hy : y.1 = k <;>
      simp [lookupKey, hx, hy]
    exact absurd (hy.trans hx.symm) hxy
  | trans h12 h23 ih1 ih2 =>
    intro hnd
    have hnd2 := ((h12.map Prod.fst).nodup_iff).mp hnd
    exact (ih1 hnd).trans (ih2 hnd2)

/-- Sorting the keys lexicographically erases the distinction between any two
permutations of the map's entries. -/
theorem sortedKeys_perm_eq {α : Type} {l1 l2 : List (String × α)} (hperm : l1.Perm l2) :
    List.insertionSort (fun a b : String => a ≤ b) (l1.map Prod.fst) =
      List.insertionSort (fun a b : String => a ≤ b) (l2.map Prod.fst) :=
  List.eq_of_perm_of_sorted
    ((List.perm_insertionSort _ _).trans
      ((hperm.map Prod.fst).trans (List.perm_insertionSort _ _).symm))
    (List.sorted_insertionSort _ _) (List.sorted_insertionSort _ _)

/-- C8: for every map input, items(map, keyName, valName) is a deterministic
function of the map's contents — any two entry orders (permutations with
unique keys) give the same output, one object per entry ordered by
lexicographically sorted key — and items(\x7b"a":1,"b":2\x7d, "key", "value")
returns [\x7b"key":"a","value":1\x7d, \x7b"key":"b","value":2\x7d]. -/
theorem c8_thm :
    (∀ (α : Type) (_ : Inhabited α) (l1 l2 : List (String × α)) (keyName valName : String),
      l1.Perm l2 → (l1.map Prod.fst).Nodup →
      jpItemsMap l1 keyName valName = jpItemsMap l2 keyName valName) ∧
    jpItemsMap [("a", (1 : ℚ)), ("b", 2)] "key" "value" =
      [[("key", Sum.inl "a"), ("value", Sum.inr 1)],
       [("key", Sum.inl "b"), ("value", Sum.inr 2)]] := by
  constructor
  · intro α _ l1 l2 keyName valName hperm hnd
    simp only [jpItemsMap, sortedKeys_perm_eq hperm]
    apply List.map_congr_left
    intro k _
    rw [lookupKey_perm k hperm hnd]
  · simp [jpItemsMap, List.insertionSort, List.orderedInsert, lookupKey, mkItemObj]
    decide

/-- C8 (witness): c8_thm's determinism applied at the two orders of the map
\x7b"a":1,"b":2\x7d. -/
theorem c8_witness :
    jpItemsMap [("a", (1 : ℚ)), ("b", 2)] "key" "value" =
      jpItemsMap [("b", (2 : ℚ)), ("a", 1)] "key" "value" :=
  c8_thm.1 ℚ ⟨0⟩ _ _ "key" "value" (List.Perm.swap _ _ _) (by decide)

end jmespath

namespace validation

open engineapi

/-- C1 (counterexample): a single-element for-each whose (last) element's
nested evaluation returns Error aborts with the folded message, but the
aggregate response keeps status Error — not Fail as claimed. -/
theorem c1_counterexample :
    (validateElements "r"
      (fun _ _ => ElementOutcome.res (some (internal.RuleResponse "r" .validation "boom" .error)))
      [some ()]).1 =
      internal.RuleResponse "r" .validation "validation failure: boom" .error ∧
    RuleStatus.error ≠ RuleStatus.fail := by
  constructor
  · rfl
  · simp

/-- C1 (amended): in the validating for-each element loop, an element whose
nested evaluation returns Error continues to the next element when it is not
the last one; when it is the last element the loop aborts, returning the
element's error message folded into "validation failure: ..." with status
Error (the element's own status); and any non-Pass element-loop response is
surfaced unchanged as the rule's aggregate for-each response. -/
theorem c1_amended {α : Type} (name : String) (run : Nat → α → ElementOutcome)
    (total index applyCount : Nat) (rest : List (Option α)) (el : α)
    (r : RuleResponse)
    (h1 : run index el = .res (some r)) (h2 : r.status = .error) :
    (index < total - 1 →
      veLoop name run total (some el :: rest) index applyCount =
        veLoop name run total rest (index + 1) applyCount) ∧
    (¬ index < total - 1 →
      veLoop name run total (some el :: rest) index applyCount =
        (internal.RuleResponse name .validation ("validation failure: " ++ r.message) .error,
          applyCount)) ∧
    (∀ (elements : List (Option α)) (resp : RuleResponse) (count : Nat),
      validateElements name run elements = (resp, count) → resp.status ≠ .pass →
      validateForEach name (some [⟨some elements, run⟩]) = some resp) := by
  refine ⟨?_, ?_, ?_⟩
  · intro hlt
    simp [veLoop, h1, h2, hlt]
  · intro hlt
    simp [veLoop, h1, h2, hlt]
  · intro elements resp count hve hnp
    simp [validateForEach, feLoop, hve, hnp]

/-- C1 (witness): c1_amended on a two-element list at the erroring first
element (the loop steps to the next element) and on a one-element list at the
erroring last element (the loop aborts with the folded Error response). -/
theorem c1_witness :
    veLoop "r"
      (fun _ _ => ElementOutcome.res (some (internal.RuleResponse "r" .validation "boom" .error)))
      2 [some (), some ()] 0 0 =
      veLoop "r"
        (fun _ _ => ElementOutcome.res (some (internal.RuleResponse "r" .validation "boom" .error)))
        2 [some ()] 1 0 ∧
    veLoop "r"
      (fun _ _ => ElementOutcome.res (some (internal.RuleResponse "r" .validation "boom" .error)))
      1 [some ()] 0 0 =
      (internal.RuleResponse "r" .validation "validation failure: boom" .error, 0) :=
  ⟨(c1_amended "r" _ 2 0 0 [some ()] ()
      (internal.RuleResponse "r" .validation "boom" .error) rfl rfl).1 (by decide),
   (c1_amended "r" _ 1 0 0 [] ()
      (internal.RuleResponse "r" .validation "boom" .error) rfl rfl).2.1 (by decide)⟩

/-- When no foreach entry aborts, the spec loop completes with the summed
applied count. -/
theorem feLoop_all_pass {α : Type} (name : String) (specs : List (ForEachSpec α)) (acc : Nat)
    (h : ∀ s ∈ specs, ∀ elems, s.elements = some elems →
      (validateElements name s.run elems).1.status = .pass) :
    feLoop name specs acc = (none, acc + appliedTotal name specs) := by
  induction specs generalizing acc with
  | nil => simp [feLoop, appliedTotal]
  | cons s rest ih =>
    have hrest : ∀ s2 ∈ rest, ∀ elems, s2.elements = some elems →
        (validateElements name s2.run elems).1.status = .pass := by
      intro s2 hs2 elems he
      exact h s2 (by simp [hs2]) elems he
    cases hse : s.elements with
    | none =>
      simp [feLoop, hse, appliedTotal, ih _ hrest]
    | some elems =>
      have hp := h s (by simp) elems hse
      simp [feLoop, hse, hp, appliedTotal, ih _ hrest, Nat.add_assoc]

/-- C7: for a rule with a for-each validation spec, when every configured
list either fails to evaluate (and is skipped) or runs its element loop to a
Pass, the rule's response is Skip ("rule skipped") when zero elements counted
toward the applied total and Pass ("rule passed") otherwise. -/
theorem c7_thm {α : Type} (name : String) (specs : List (ForEachSpec α))
    (h : ∀ s ∈ specs, ∀ elems, s.elements = some elems →
      (validateElements name s.run elems).1.status = .pass) :
    validateForEach name (some specs) =
      some (if appliedTotal name specs = 0 then internal.RuleSkip name .validation "rule skipped"
            else internal.RulePass name .validation "rule passed") := by
  have hl := feLoop_all_pass name specs 0 h
  by_cases h0 : appliedTotal name specs = 0 <;> simp [validateForEach, hl, h0]

/-- C7 (witness): c7_thm at a single foreach entry over an empty list — zero
applied elements — which yields Skip, and at a single foreach entry over a
one-element list whose element passes — one applied element — which yields
Pass. -/
theorem c7_witness :
    validateForEach "r"
      (some [(⟨some [], fun _ _ => ElementOutcome.res none⟩ : ForEachSpec Unit)]) =
      some (internal.RuleSkip "r" .validation "rule skipped") ∧
    validateForEach "r"
      (some [(⟨some [some ()],
        fun _ _ => ElementOutcome.res (some (internal.RulePass "r" .validation ""))⟩ :
          ForEachSpec Unit)]) =
      some (internal.RulePass "r" .validation "rule passed") := by
  constructor
  · have := c7_thm "r" [(⟨some [], fun _ _ => ElementOutcome.res none⟩ : ForEachSpec Unit)]
      (by intro s hs elems he
          simp at hs
          subst hs
          simp at he
          subst he
          rfl)
    simpa using this
  · have := c7_thm "r" [(⟨some [some ()],
        fun _ _ => ElementOutcome.res (some (internal.RulePass "r" .validation ""))⟩ :
          ForEachSpec Unit)]
      (by intro s hs elems he
          simp at hs
          subst hs
          simp at he
          subst he
          rfl)
    have h1 : appliedTotal "r" [(⟨some [some ()],
        fun _ _ => ElementOutcome.res (some (internal.RulePass "r" .validation ""))⟩ :
          ForEachSpec Unit)] = 1 := rfl
    rw [this, h1]
    simp

/-- The anyPattern loop with no fully matching candidate aggregates exactly
the accumulated and remaining skipped/failed entries. -/
theorem anyPatternLoop_no_ok {Pat : Type} (name vmsg : String) (mp : Pat → MatchOutcome)
    (pats : List Pat) (idx : Nat) (skipped failed : List String)
    (h : ∀ p ∈ pats, mp p ≠ .ok) :
    anyPatternLoop name vmsg mp pats idx skipped failed =
      (if 0 < (skipped ++ skipEntries name mp pats idx).length ∧
          (failed ++ failEntries name mp pats idx).length = 0 then
        internal.RuleSkip name .validation
          (String.intercalate " " (skipped ++ skipEntries name mp pats idx))
      else if 0 < (failed ++ failEntries name mp pats idx).length then
        internal.RuleResponse name .validation
          (buildAnyPatternErrorMessage vmsg (failed ++ failEntries name mp pats idx)) .fail
      else internal.RulePass name .validation vmsg) := by
  induction pats generalizing idx skipped failed with
  | nil => simp [anyPatternLoop, skipEntries, failEntries]
  | cons p rest ih =>
    have hp : mp p ≠ .ok := h p (by simp)
    have hr : ∀ q ∈ rest, mp q ≠ .ok := fun q hq => h q (by simp [hq])
    cases hmp : mp p with
    | ok => exact absurd hmp hp
    | patternErr path skipFlag msg =>
      cases skipFlag with
      | true =>
        simp only [anyPatternLoop, hmp, if_true, skipEntries, failEntries,
          ih _ _ _ hr, List.append_assoc, List.singleton_append]
      | false =>
        simp only [anyPatternLoop, hmp, if_false, Bool.false_eq_true, skipEntries, failEntries,
          ih _ _ _ hr, List.append_assoc, List.singleton_append]
    | otherErr m =>
      simp only [anyPatternLoop, hmp, skipEntries, failEntries, ih _ _ _ hr]

/-- The anyPattern loop returns Pass naming the first fully matching
candidate's absolute index. -/
theorem anyPatternLoop_first_ok {Pat : Type} (name vmsg : String) (mp : Pat → MatchOutcome) :
    ∀ (pats : List Pat) (idx : Nat) (skipped failed : List String) (k : Nat)
      (hk : k < pats.length),
      mp (pats.get ⟨k, hk⟩) = .ok →
      (∀ j (hj : j < k), mp (pats.get ⟨j, Nat.lt_trans hj hk⟩) ≠ .ok) →
      anyPatternLoop name vmsg mp pats idx skipped failed =
        internal.RulePass name .validation
          ("validation rule '" ++ name ++ "' anyPattern[" ++ toString (idx + k) ++ "] passed.")
  | [], idx, skipped, failed, k, hk => by simp at hk
  | p :: rest, idx, skipped, failed, 0, hk => by
    intro hok _
    simp only [List.get] at hok
    simp [anyPatternLoop, hok]
  | p :: rest, idx, skipped, failed, k + 1, hk => by
    intro hok hbefore
    have hp : mp p ≠ .ok := by
      have := hbefore 0 (Nat.succ_pos k)
      simpa using this
    have hok2 : mp (rest.get ⟨k, Nat.lt_of_succ_lt_succ hk⟩) = .ok := by
      simpa using hok
    have hbefore2 : ∀ j (hj : j < k),
        mp (rest.get ⟨j, Nat.lt_trans hj (Nat.lt_of_succ_lt_succ hk)⟩) ≠ .ok := by
      intro j hj
      have := hbefore (j + 1) (Nat.succ_lt_succ hj)
      simpa using this
    have harith : idx + 1 + k = idx + (k + 1) := by omega
    cases hmp : mp p with
    | ok => exact absurd hmp hp
    | patternErr path skipFlag msg =>
      cases skipFlag with
      | true =>
        rw [anyPatternLoop, hmp]
        simp only [if_true]
        rw [anyPatternLoop_first_ok name vmsg mp rest (idx + 1) _ _ k _ hok2 hbefore2, harith]
      | false =>
        rw [anyPatternLoop, hmp]
        simp only [Bool.false_eq_true, if_false]
        rw [anyPatternLoop_first_ok name vmsg mp rest (idx + 1) _ _ k _ hok2 hbefore2, harith]
    | otherErr m =>
      rw [anyPatternLoop, hmp]
      rw [anyPatternLoop_first_ok name vmsg mp rest (idx + 1) _ _ k _ hok2 hbefore2, harith]

/-- Candidates that are never classified as outright failures contribute no
failed entry. -/
theorem failEntries_eq_nil {Pat : Type} (name : String) (mp : Pat → MatchOutcome)
    (pats : List Pat) (idx : Nat)
    (h : ∀ p ∈ pats, ∀ path msg, mp p ≠ .patternErr path false msg) :
    failEntries name mp pats idx = [] := by
  induction pats generalizing idx with
  | nil => simp [failEntries]
  | cons p rest ih =>
    have hr : ∀ q ∈ rest, ∀ path msg, mp q ≠ .patternErr path false msg :=
      fun q hq => h q (by simp [hq])
    cases hmp : mp p with
    | ok => simp [failEntries, hmp, ih _ hr]
    | patternErr path skipFlag msg =>
      cases skipFlag with
      | true => simp [failEntries, hmp, ih _ hr]
      | false => exact absurd hmp (h p (by simp) path msg)
    | otherErr m => simp [failEntries, hmp, ih _ hr]

/-- C6: anyPattern validation tries the candidates in order — the first full
match yields Pass naming that candidate's index; if no candidate matches and
at least one failed outright, the result is Fail with every failing
candidate's reason concatenated into one message; and if there is at least
one candidate, all are classified skip-worthy and none failed outright, the
result is Skip with the skip reasons concatenated. -/
theorem c6_thm {Res Pat Elem : Type} (v : Validator Res Pat Elem) (resource : Res)
    (pats : List Pat) (hp : v.pattern = none) (ha : v.anyPattern = some (.ok pats)) :
    (∀ k (hk : k < pats.length),
      v.matchPattern resource (pats.get ⟨k, hk⟩) = .ok →
      (∀ j (hj : j < k), v.matchPattern resource (pats.get ⟨j, Nat.lt_trans hj hk⟩) ≠ .ok) →
      validatePatterns v resource =
        internal.RulePass v.ruleName .validation
          ("validation rule '" ++ v.ruleName ++ "' anyPattern[" ++ toString k ++ "] passed.")) ∧
    ((∀ p ∈ pats, v.matchPattern resource p ≠ .ok) →
      failEntries v.ruleName (v.matchPattern resource) pats 0 ≠ [] →
      validatePatterns v resource =
        internal.RuleResponse v.ruleName .validation
          (buildAnyPatternErrorMessage v.validationMessage
            (failEntries v.ruleName (v.matchPattern resource) pats 0)) .fail) ∧
    ((∀ p ∈ pats, ∃ path msg, v.matchPattern resource p = .patternErr path true msg) →
      pats ≠ [] →
      validatePatterns v resource =
        internal.RuleSkip v.ruleName .validation
          (String.intercalate " "
            (skipEntries v.ruleName (v.matchPattern resource) pats 0))) := by
  have hval : validatePatterns v resource =
      anyPatternLoop v.ruleName v.validationMessage (v.matchPattern resource) pats 0 [] [] := by
    simp [validatePatterns, hp, ha]
  refine ⟨?_, ?_, ?_⟩
  · intro k hk hok hbefore
    rw [hval, anyPatternLoop_first_ok v.ruleName v.validationMessage (v.matchPattern resource)
      pats 0 [] [] k hk hok hbefore, Nat.zero_add]
  · intro hno hfail
    rw [hval, anyPatternLoop_no_ok v.ruleName v.validationMessage (v.matchPattern resource)
      pats 0 [] [] hno]
    have : (failEntries v.ruleName (v.matchPattern resource) pats 0).length ≠ 0 := by
      simpa [List.length_eq_zero] using hfail
    simp [this, Nat.pos_of_ne_zero this]
  · intro hall hne
    have hno : ∀ p ∈ pats, v.matchPattern resource p ≠ .ok := by
      intro p hp2
      obtain ⟨path, msg, hpm⟩ := hall p hp2
      simp [hpm]
    have hfail : failEntries v.ruleName (v.matchPattern resource) pats 0 = [] := by
      apply failEntries_eq_nil
      intro p hp2 path msg
      obtain ⟨path2, msg2, hpm⟩ := hall p hp2
      simp [hpm]
    have hskip : skipEntries v.ruleName (v.matchPattern resource) pats 0 ≠ [] := by
      cases pats with
      | nil => exact absurd rfl hne
      | cons p rest =>
        obtain ⟨path, msg, hpm⟩ := hall p (by simp)
        simp [skipEntries, hpm]
    rw [hval, anyPatternLoop_no_ok v.ruleName v.validationMessage (v.matchPattern resource)
      pats 0 [] [] hno]
    have : 0 < (skipEntries v.ruleName (v.matchPattern resource) pats 0).length := by
      cases hsk : skipEntries v.ruleName (v.matchPattern resource) pats 0 with
      | nil => exact absurd hsk hskip
      | cons a l => simp
    simp [hfail, this]

/-- C6 (witness): c6_thm's first-match clause on two candidates where only
the second fully matches — the result is Pass naming anyPattern[1]. -/
theorem c6_witness :
    validatePatterns
      ({ ruleName := "r", validationMessage := "", loadContext := .ok (),
         preconditions := .ok true, denyResponse := none, pattern := none,
         anyPattern := some (.ok [false, true]), forEach := none, substitute := .ok (),
         matchPattern := fun _ p => if p then .ok else .patternErr "spec.x" false "no match",
         element := none, newResource := (), isDelete := false,
         msgSubst := .ok "" } : Validator Unit Bool Unit) () =
      internal.RulePass "r" .validation
        ("validation rule '" ++ "r" ++ "' anyPattern[" ++ toString (1 : Nat) ++ "] passed.") :=
  (c6_thm _ () [false, true] rfl rfl).1 1 (by decide) (by simp)
    (by intro j hj
        have hj0 : j = 0 := by omega
        subst hj0
        simp)

/-- C10: a validation rule whose context loading and preconditions succeed
but whose spec has no deny, pattern, anyPattern or forEach produces no rule
response at all — validate returns nil and the handler's response list is
empty (no Error-status response is built). -/
theorem c10_thm {Res Pat Elem : Type} (v : Validator Res Pat Elem)
    (h1 : v.loadContext = .ok ()) (h2 : v.preconditions = .ok true)
    (h3 : v.denyResponse = none) (h4 : v.pattern = none) (h5 : v.anyPattern = none)
    (h6 : v.forEach = none) :
    validate v = none ∧ Process v = [] := by
  have hv : validate v = none := by
    simp [validate, h1, h2, h3, h4, h5, h6]
  exact ⟨hv, by simp [Process, hv, RuleResponses]⟩

/-- C10 (witness): c10_thm on a concrete empty-shaped validator. -/
theorem c10_witness :
    Process ({ ruleName := "r", validationMessage := "", loadContext := .ok (),
               preconditions := .ok true, denyResponse := none, pattern := none,
               anyPattern := none, forEach := none, substitute := .ok (),
               matchPattern := (fun _ _ => .ok), element := none, newResource := (),
               isDelete := false, msgSubst := .ok "" } : Validator Unit Unit Unit) = [] :=
  (c10_thm _ rfl rfl rfl rfl rfl rfl).2

end validation

namespace patch

open engineapi

/-- C2 (counterexample): when the patch body fails to convert, Patch()
returns status Fail — not the claimed Error. -/
theorem c2_counterexample :
    (Patch (⟨"r", "bad", some ()⟩ : PatchesJSON6902Handler Unit)
        (fun _ => (.error "error in type conversion" : Except String Unit))
        (fun n _ r => (internal.RuleResponse n .mutation "" .pass, r))).1.status =
      RuleStatus.fail ∧ RuleStatus.fail ≠ RuleStatus.error :=
  ⟨rfl, by simp⟩

/-- C2 (amended): when conversion of the patch string to an ordered operation
list fails, Patch() returns a RuleResponse carrying the rule name, Mutation
type, the type-conversion error message and status Fail, together with the
empty resource document (none), not the input document. -/
theorem c2_amended {Res Ops : Type} (h : PatchesJSON6902Handler Res)
    (convert : String → Except String Ops)
    (process : String → Ops → Option Res → RuleResponse × Option Res)
    (e : String) (hc : convert h.patches = .error e) :
    Patch h convert process =
      ({ name := h.ruleName, rtype := .mutation, message := e, status := .fail }, none) := by
  simp [Patch, hc]

/-- C2 (witness): c2_amended at a concrete handler whose conversion fails. -/
theorem c2_witness :
    Patch (⟨"r", "bad", some ()⟩ : PatchesJSON6902Handler Unit)
        (fun _ => (.error "error in type conversion" : Except String Unit))
        (fun n _ r => (internal.RuleResponse n .mutation "" .pass, r)) =
      ({ name := "r", rtype := .mutation, message := "error in type conversion",
         status := .fail }, none) :=
  c2_amended _ _ _ "error in type conversion" rfl

end patch

namespace engine

open engineapi

/-- In ApplyOne mode, once the rule at position i has a counted response,
every invoked rule index is at most startIdx + i. -/
theorem vapiLoop_counted_bound (counted : RuleStatus → Bool) :
    ∀ (l : List (List RuleResponse)) (startIdx count i : Nat) (hi : i < l.length),
      (l.get ⟨i, hi⟩).any (fun r => counted r.status) = true →
      ∀ k ∈ (vapiLoop counted .one l startIdx count).1, k ≤ startIdx + i := by
  intro l
  induction l with
  | nil => intro startIdx count i hi; simp at hi
  | cons rs rest ih =>
    intro startIdx count i hi hany k hk
    by_cases hbr : count + rs.countP (fun r => counted r.status) > 0
    · simp [vapiLoop, hbr] at hk
      omega
    · cases i with
      | zero =>
        exfalso
        have hpos : 0 < rs.countP (fun r => counted r.status) := by
          simp only [List.get] at hany
          simp only [List.any_eq_true] at hany
          exact List.countP_pos_iff.mpr (by simpa using hany)
        omega
      | succ i2 =>
        simp only [vapiLoop, hbr, if_neg, and_true, gt_iff_lt, not_lt,
          Nat.le_zero] at hk
        rcases List.mem_cons.mp hk with hk | hk
        · omega
        · have hany2 : (rest.get ⟨i2, Nat.lt_of_succ_lt_succ hi⟩).any
              (fun r => counted r.status) = true := by
            simpa using hany
          have := ih (startIdx + 1) (count + rs.countP (fun r => counted r.status)) i2
            (Nat.lt_of_succ_lt_succ hi) hany2 k hk
          omega

/-- C9: in the image-verification rule loop with apply-rules mode ApplyOne,
no rule positioned after a rule that produced a counted (applied) response is
ever invoked. -/
theorem c9_thm (counted : RuleStatus → Bool) (rules : List (List RuleResponse))
    (i j : Nat) (hij : i < j) (hi : i < rules.length)
    (hc : (rules.get ⟨i, hi⟩).any (fun r => counted r.status) = true) :
    j ∉ (verifyAndPatchImages counted .one rules).1 := by
  intro hj
  have := vapiLoop_counted_bound counted rules 0 0 i hi hc j hj
  omega

/-- C9 (witness): c9_thm on two rules where the first produces a counted
(Pass) response — the second rule is not invoked. -/
theorem c9_witness :
    (1 : Nat) ∉ (verifyAndPatchImages (fun s => s = .pass) .one
      [[internal.RulePass "r1" .imageVerify ""], [internal.RulePass "r2" .imageVerify ""]]).1 :=
  c9_thm (fun s => s = .pass) _ 0 1 (by decide) (by decide) (by decide)

end engine
